import Mathlib

/-!
Shallow embedding of the table-descriptor construction and foreign-key /
interleave resolution engine behind CREATE TABLE
(pkg/sql/create_table.go).  Pure Go functions become Lean functions;
fallible code returns Except; descriptor mutation becomes explicit state
passing.  Collaborators that live outside the excerpt (descpb helpers,
tabledesc methods, the schema resolver) are modelled from the spec where
a claim depends on them; each such definition says so in its doc comment.
-/

namespace CreateTable

/-! ## Semantic types (types.T, external package; modelled from the spec).
The spec requires "type equivalence per column pair" for FK columns and
"type identity" for interleave columns.  Equivalence compares type
families (ignoring width), identity compares full types. -/

inductive SqlFamily where
  | intFamily
  | stringFamily
  | boolFamily
  | geometryFamily
  | geographyFamily
  | dateFamily
  deriving DecidableEq, Repr

inductive SqlType where
  | int2
  | int4
  | int8
  | text
  | boolean
  | geometry
  | geography
  | date
  deriving DecidableEq, Repr, Inhabited

def SqlType.family : SqlType → SqlFamily
  | .int2 => .intFamily
  | .int4 => .intFamily
  | .int8 => .intFamily
  | .text => .stringFamily
  | .boolean => .boolFamily
  | .geometry => .geometryFamily
  | .geography => .geographyFamily
  | .date => .dateFamily

/-- Modelled from the spec: `types.T.Equivalent` — same type family. -/
def SqlType.Equivalent (a b : SqlType) : Bool := a.family = b.family

/-- Modelled from the spec: `types.T.Identical` — exact type equality. -/
def SqlType.Identical (a b : SqlType) : Bool := a = b

/-! ## SQL error codes (pgcode values used by the excerpt). -/

inductive SQLError where
  | typeAlreadyExists
  | relationAlreadyExists
  | objectAlreadyExists
  | insufficientPrivilege
  | featureNotSupported
  | invalidSchemaDefinition
  | invalidForeignKey
  | invalidTableDefinition
  | datatypeMismatch
  | syntaxError
  | foreignKeyViolation
  | duplicateObject
  | undefinedColumn
  | undefinedTable
  | assertionFailed
  deriving DecidableEq, Repr, Inhabited

/-! ## Expression AST fragments (tree package nodes used by
makeHashShardComputeExpr and makeShardCheckConstraintDef). -/

inductive Expr where
  | columnItem (name : String)
  | dString (s : String)
  | dInt (n : Int)
  | castString (e : Expr)
  | coalesceExpr (args : List Expr)
  | funcExpr (name : String) (args : List Expr)
  | binPlus (l r : Expr)
  | tuple (es : List Expr)
  | inOp (l r : Expr)
  deriving Repr, Inhabited

mutual

/-- Modelled from the spec: `tree.Serialize` (external formatter).  The
spec fixes the textual shape `mod(fnv32(a::STRING)+fnv32(b::STRING), 4)`
with COALESCE-wrapped casts; SQL string literals are single-quoted. -/
def serializeExpr : Expr → String
  | .columnItem n => n
  | .dString s => "\x27" ++ s ++ "\x27"
  | .dInt n => toString n
  | .castString e => serializeExpr e ++ "::STRING"
  | .coalesceExpr args => "COALESCE(" ++ serializeExprList args ++ ")"
  | .funcExpr f args => f ++ "(" ++ serializeExprList args ++ ")"
  | .binPlus l r => serializeExpr l ++ " + " ++ serializeExpr r
  | .tuple es => "(" ++ serializeExprList es ++ ")"
  | .inOp l r => serializeExpr l ++ " IN " ++ serializeExpr r

def serializeExprList : List Expr → String
  | [] => ""
  | [e] => serializeExpr e
  | e :: es => serializeExpr e ++ ", " ++ serializeExprList es

end

/-! ## makeHashShardComputeExpr (create_table.go lines 2009-2066). -/

/-- The `hashedColumnExpr` closure inside makeHashShardComputeExpr:
`fnv32(COALESCE(col::STRING, ''))`. -/
def hashedColumnExpr (colName : String) : Expr :=
  .funcExpr ("fnv32")
    [.coalesceExpr [.castString (.columnItem colName), .dString ("")]]

/-- The summation loop of makeHashShardComputeExpr: iterates from the
last column name to the first, keeping the accumulated expression on the
right of each new `+`; nil (None) when the column list is empty. -/
def shardSumExpr : List String → Option Expr
  | [] => none
  | c :: rest =>
    match shardSumExpr rest with
    | none => some (hashedColumnExpr c)
    | some e => some (.binPlus (hashedColumnExpr c) e)

/-- makeHashShardComputeExpr (create_table.go:2009): serialized compute
expression `mod(fnv32(COALESCE(c::STRING,'')) + ..., buckets)` for a hash
shard column.  (The Go function is never called with an empty column
list; the `getD` default covers totality only.) -/
def makeHashShardComputeExpr (colNames : List String) (buckets : Nat) : String :=
  serializeExpr (.funcExpr ("mod")
    [(shardSumExpr colNames).getD (.dString ("")), .dInt (Int.ofNat buckets)])

/-! ## Descriptor data model (descpb / tabledesc, external packages;
modelled from the spec sections 3 and 6, restricted to the fields the
excerpt reads and writes). -/

inductive DescriptorState where
  | publicState
  | add
  | drop
  deriving DecidableEq, Repr, Inhabited

inductive Direction where
  | asc
  | desc
  deriving DecidableEq, Repr, Inhabited

inductive ConstraintValidity where
  | validated
  | unvalidated
  | validating
  deriving DecidableEq, Repr, Inhabited

/-- FK reference actions.  The tree-package and descpb enums are mapped
one-to-one by `descpb.ForeignKeyReferenceActionValue`, so a single
enumeration stands for both sides of that mapping. -/
inductive FKAction where
  | noAction
  | restrict
  | setNull
  | setDefault
  | cascade
  deriving DecidableEq, Repr, Inhabited

inductive MatchMethod where
  | simple
  | full
  | partialMatch
  deriving DecidableEq, Repr, Inhabited

structure ColumnDescriptor where
  id : Nat := 0
  name : String := ""
  typ : SqlType := .int8
  nullable : Bool := true
  defaultExpr : Option String := none
  computeExpr : Option String := none
  hidden : Bool := false
  deriving DecidableEq, Repr, Inhabited

structure InterleaveAncestor where
  tableID : Nat := 0
  indexID : Nat := 0
  sharedPrefixLen : Nat := 0
  deriving DecidableEq, Repr, Inhabited

structure IndexDescriptor where
  id : Nat := 0
  name : String := ""
  unique : Bool := false
  columnIDs : List Nat := []
  columnNames : List String := []
  columnDirections : List Direction := []
  interleaveAncestors : List InterleaveAncestor := []
  interleavedBy : List (Nat × Nat) := []
  deriving DecidableEq, Repr, Inhabited

structure ForeignKeyConstraint where
  originTableID : Nat := 0
  originColumnIDs : List Nat := []
  referencedColumnIDs : List Nat := []
  referencedTableID : Nat := 0
  name : String := ""
  validity : ConstraintValidity := .validated
  onDelete : FKAction := .noAction
  onUpdate : FKAction := .noAction
  matchMethod : MatchMethod := .simple
  deriving DecidableEq, Repr, Inhabited

/-- A resolved check constraint as stored on the descriptor (the
expression is kept in serialized form, as in descpb). -/
structure CheckConstraint where
  name : String := ""
  expr : String := ""
  hidden : Bool := false
  deriving DecidableEq, Repr, Inhabited

/-- Pending descriptor mutations (descpb.DescriptorMutation, ADD
direction only — the excerpt only ever enqueues ADD mutations). -/
inductive Mutation where
  | addColumn (c : ColumnDescriptor)
  | addIndex (i : IndexDescriptor)
  | addForeignKey (fk : ForeignKeyConstraint)
  deriving DecidableEq, Repr, Inhabited

structure TableDescriptor where
  id : Nat := 0
  parentID : Nat := 0
  name : String := ""
  state : DescriptorState := .publicState
  temporary : Bool := false
  columns : List ColumnDescriptor := []
  primaryIndex : IndexDescriptor := {}
  indexes : List IndexDescriptor := []
  checks : List CheckConstraint := []
  outboundFKs : List ForeignKeyConstraint := []
  inboundFKs : List ForeignKeyConstraint := []
  mutations : List Mutation := []
  nextIndexID : Nat := 2
  deriving DecidableEq, Repr, Inhabited

/-! ## Catalog helper functions (tabledesc.Mutable methods, external;
modelled from the spec's descriptor-store contract). -/

def findColumnByName (cols : List ColumnDescriptor) (n : String) :
    Option ColumnDescriptor :=
  cols.find? (fun c => c.name == n)

def TableDescriptor.findColumnByID (t : TableDescriptor) (i : Nat) :
    Option ColumnDescriptor :=
  t.columns.find? (fun c => c.id == i)

/-- Index descriptors sitting in pending ADD mutations. -/
def TableDescriptor.mutationIndexes (t : TableDescriptor) : List IndexDescriptor :=
  t.mutations.filterMap (fun m =>
    match m with
    | .addIndex i => some i
    | _ => none)

/-- Column descriptors sitting in pending ADD mutations. -/
def TableDescriptor.mutationColumns (t : TableDescriptor) : List ColumnDescriptor :=
  t.mutations.filterMap (fun m =>
    match m with
    | .addColumn c => some c
    | _ => none)

/-- FK constraints sitting in pending ADD mutations. -/
def fkMutations (t : TableDescriptor) : List ForeignKeyConstraint :=
  t.mutations.filterMap (fun m =>
    match m with
    | .addForeignKey fk => some fk
    | _ => none)

/-- Modelled from the spec: `FindActiveOrNewColumnByName` — searches the
active columns, then columns pending in ADD mutations. -/
def TableDescriptor.findActiveOrNewColumnByName (t : TableDescriptor) (n : String) :
    Option ColumnDescriptor :=
  match findColumnByName t.columns n with
  | some c => some c
  | none => findColumnByName t.mutationColumns n

/-- Lookup in the `backrefs` map (keyed by descriptor ID). -/
def lookupByID (l : List TableDescriptor) (i : Nat) : Option TableDescriptor :=
  l.find? (fun t => t.id == i)

/-- Insert-or-replace in the `backrefs` map (keyed by descriptor ID). -/
def upsertByID (l : List TableDescriptor) (t : TableDescriptor) :
    List TableDescriptor :=
  match l with
  | [] => [t]
  | x :: xs => if x.id == t.id then t :: xs else x :: upsertByID xs t

/-- The retry loop of `tabledesc.GenerateUniqueConstraintName` (external;
modelled from the spec's "auto-generate ... with collision-avoidance
suffixing"): append `_1`, `_2`, ... until the name is free. -/
def genNameLoop (p : String) (taken : String → Bool) : Nat → Nat → String
  | 0, i => p ++ "_" ++ toString i
  | fuel + 1, i =>
    let cand := p ++ "_" ++ toString i
    if taken cand then genNameLoop p taken fuel (i + 1) else cand

/-- Modelled from the spec: `tabledesc.GenerateUniqueConstraintName`. -/
def generateUniqueConstraintName (p : String) (taken : String → Bool) : String :=
  if taken p then genNameLoop p taken 1000 1 else p

/-- Modelled from the spec: the name set reported by
`GetConstraintInfo` — unique-index, check and FK constraint names. -/
def constraintNames (t : TableDescriptor) : List String :=
  (((t.primaryIndex :: t.indexes).filter (fun i => i.unique)).map (fun i => i.name))
    ++ t.checks.map (fun c => c.name)
    ++ t.outboundFKs.map (fun fk => fk.name)

/-- Modelled from the spec: `ValidateIndexNameIsUnique` fails exactly
when an index (active or pending) already carries the name. -/
def indexNameTaken (t : TableDescriptor) (n : String) : Bool :=
  ((t.primaryIndex :: t.indexes ++ t.mutationIndexes).map
    (fun i => i.name)).contains n

/-! ## AllocateIDs (tabledesc.Mutable.AllocateIDs, external; modelled
from the spec: "Allocate IDs (columns, indexes get permanent numeric
IDs)", strictly additive and idempotent for already-ID'd elements). -/

/-- Fill an index's key column IDs from its column names once the
referenced columns have IDs (part of AllocateIDs). -/
def fillIndexColumnIDs (cols : List ColumnDescriptor) (idx : IndexDescriptor) :
    IndexDescriptor :=
  if idx.columnIDs.length == idx.columnNames.length then idx
  else
    let ids := idx.columnNames.filterMap
      (fun n => (findColumnByName cols n).map (fun c => c.id))
    { idx with columnIDs := ids }

def allocateIndexList (cols : List ColumnDescriptor) :
    List IndexDescriptor → Nat → (List IndexDescriptor × Nat)
  | [], next => ([], next)
  | idx :: rest, next =>
    let idx := fillIndexColumnIDs cols idx
    let (idx, next) :=
      if idx.id == 0 then ({ idx with id := next }, next + 1) else (idx, next)
    let (rest, next) := allocateIndexList cols rest next
    (idx :: rest, next)

def allocateMutationIndexes (cols : List ColumnDescriptor) :
    List Mutation → Nat → (List Mutation × Nat)
  | [], next => ([], next)
  | .addIndex idx :: rest, next =>
    let idx := fillIndexColumnIDs cols idx
    let (idx, next) :=
      if idx.id == 0 then ({ idx with id := next }, next + 1) else (idx, next)
    let (rest, next) := allocateMutationIndexes cols rest next
    (Mutation.addIndex idx :: rest, next)
  | m :: rest, next =>
    let (rest, next) := allocateMutationIndexes cols rest next
    (m :: rest, next)

/-- Modelled from the spec: the index-ID part of AllocateIDs — give every
index (active or pending in a mutation) without an ID the next ID and
resolve its key column names to column IDs. -/
def allocateIndexIDs (t : TableDescriptor) : TableDescriptor :=
  let (idxs, next) := allocateIndexList t.columns t.indexes t.nextIndexID
  let (muts, next2) := allocateMutationIndexes t.columns t.mutations next
  { t with indexes := idxs, mutations := muts, nextIndexID := next2 }

/-! ## Hash-shard column synthesis
(makeShardColumnDesc create_table.go:1990, makeShardCheckConstraintDef
create_table.go:2068, plus the external helpers they rely on). -/

/-- Modelled from the spec: `tabledesc.GetShardColumnName` — a name
derived deterministically from the shard-key column list and the bucket
count. -/
def getShardColumnName (colNames : List String) (buckets : Nat) : String :=
  "crdb_internal_" ++ String.intercalate ("_") colNames
    ++ "_shard_" ++ toString buckets

/-- makeShardColumnDesc (create_table.go:1990): hidden, non-nullable,
computed INT4 column for a hash shard. -/
def makeShardColumnDesc (colNames : List String) (buckets : Nat) :
    ColumnDescriptor :=
  { id := 0
    name := getShardColumnName colNames buckets
    typ := SqlType.int4
    nullable := false
    hidden := true
    computeExpr := some (makeHashShardComputeExpr colNames buckets) }

/-- An unresolved check-constraint table definition
(tree.CheckConstraintTableDef). -/
structure CheckConstraintDefNode where
  name : String := ""
  expr : Expr := .dInt 0
  hidden : Bool := false
  deriving Repr, Inhabited

/-- makeShardCheckConstraintDef (create_table.go:2068): hidden CHECK
definition `shardCol IN (0, 1, ..., buckets-1)`.  (The descriptor
argument of the Go function is unused by its body.) -/
def makeShardCheckConstraintDef (_desc : TableDescriptor) (buckets : Nat)
    (shardCol : ColumnDescriptor) : CheckConstraintDefNode :=
  { expr := .inOp (.columnItem shardCol.name)
      (.tuple ((List.range buckets).map (fun i => Expr.dInt (Int.ofNat i))))
    hidden := true }

/-- Modelled from the spec: `maybeCreateAndAddShardCol` (not in the
excerpt) — synthesize the shard column via makeShardColumnDesc and add it
to the descriptor unless a column of that name already exists.  Returns
(shard column, whether it is new, updated descriptor). -/
def maybeCreateAndAddShardCol (buckets : Nat) (desc : TableDescriptor)
    (colNames : List String) :
    ColumnDescriptor × Bool × TableDescriptor :=
  let shardCol := makeShardColumnDesc colNames buckets
  match findColumnByName desc.columns shardCol.name with
  | some existing => (existing, false, desc)
  | none => (shardCol, true, { desc with columns := desc.columns ++ [shardCol] })

/-! ## Column / check passes of NewTableDesc, restricted to column
definitions and check-constraint definitions (the defs scenario C
exercises).  Mirrors create_table.go lines 1243-1339 (column pass, with
the PRIMARY KEY USING HASH branch at 1270-1299 appending the synthesized
check definition to n.Defs) and lines 1648-1673 (constraint pass). -/

structure ColumnTableDef where
  name : String := ""
  typ : SqlType := .int8
  isPrimaryKey : Bool := false
  sharded : Bool := false
  shardBuckets : Nat := 0
  notNull : Bool := false
  deriving Repr, Inhabited

inductive TableDef where
  | columnDef (d : ColumnTableDef)
  | checkDef (d : CheckConstraintDefNode)
  deriving Repr, Inhabited

/-- Modelled from the spec: the column-descriptor part of
`tabledesc.MakeColumnDefDescs` (external) — a column with the declared
type, nullable unless NOT NULL or PRIMARY KEY. -/
def makeColumnDefDesc (d : ColumnTableDef) : ColumnDescriptor :=
  { id := 0
    name := d.name
    typ := d.typ
    nullable := !(d.notNull || d.isPrimaryKey) }

/-- Column pass over the table definitions.  For a sharded PRIMARY KEY
column the shard column is created and added first and the synthesized
check definition is appended to the running defs list (Go appends to
n.Defs), then the user column itself is added. -/
def shardedPKColumnPass :
    List TableDef → TableDescriptor → List TableDef →
    (TableDescriptor × List TableDef)
  | [], desc, extra => (desc, extra)
  | .columnDef d :: rest, desc, extra =>
    let (desc, extra) :=
      if d.isPrimaryKey && d.sharded then
        let (shardCol, _isNew, desc) :=
          maybeCreateAndAddShardCol d.shardBuckets desc [d.name]
        let chk := makeShardCheckConstraintDef desc d.shardBuckets shardCol
        (desc, extra ++ [TableDef.checkDef chk])
      else (desc, extra)
    shardedPKColumnPass rest
      { desc with columns := desc.columns ++ [makeColumnDefDesc d] } extra
  | .checkDef _ :: rest, desc, extra => shardedPKColumnPass rest desc extra

/-- Modelled from the spec: the check-constraint builder
(schemaexpr.CheckConstraintBuilder, external) — record the serialized
expression and the hidden flag. -/
def buildCheck (d : CheckConstraintDefNode) : CheckConstraint :=
  { name := d.name, expr := serializeExpr d.expr, hidden := d.hidden }

/-- Constraint pass: resolve every check definition (original or
appended by the column pass) onto the descriptor. -/
def checkConstraintPass (defs : List TableDef) (desc : TableDescriptor) :
    TableDescriptor :=
  defs.foldl
    (fun desc df =>
      match df with
      | .checkDef d => { desc with checks := desc.checks ++ [buildCheck d] }
      | _ => desc)
    desc

/-- The column and check-constraint passes of NewTableDesc in order:
column pass (which may extend the defs list with shard check
definitions), then the constraint pass over the extended list. -/
def newTableDescColumnsAndChecks (defs : List TableDef)
    (desc0 : TableDescriptor) : TableDescriptor :=
  let (desc, extra) := shardedPKColumnPass defs desc0 []
  checkConstraintPass (defs ++ extra) desc

/-! ## ResolveFK (create_table.go lines 608-844) and addIndexForFK
(lines 848-895).

The Go function mutates `tbl` and the `backrefs` map in place; the
embedding threads that state explicitly and returns the updated origin
table together with the updated backrefs map.  An error result carries
no descriptors at all: nothing is appended to any descriptor on an error
path, matching the "no partial write" propagation policy.  The two
in-place writes that in Go precede a possible later error
(`tbl.State = ADD` and the backrefs insertion) are discarded with the
rest of the state on error, which is also what the caller observes,
since the statement aborts and nothing is persisted. -/

inductive FKTableState where
  | newTable
  | emptyTable
  | nonEmptyTable
  deriving DecidableEq, Repr, Inhabited

inductive ValidationBehavior where
  | validationDefault
  | validationSkip
  deriving DecidableEq, Repr, Inhabited

/-- tree.ForeignKeyConstraintTableDef, restricted to the fields
ResolveFK reads. -/
structure ForeignKeyDef where
  name : String := ""
  targetTable : String := ""
  fromCols : List String := []
  toCols : List String := []
  onDelete : FKAction := .noAction
  onUpdate : FKAction := .noAction
  matchMethod : MatchMethod := .simple
  deriving DecidableEq, Repr, Inhabited

/-- The ambient collaborators of ResolveFK: the uncached schema resolver
(a catalog of name-resolvable tables, uncommitted descriptors included),
the `sql.cross_db_fks.enabled` cluster setting, and the
`clusterversion.NoOriginFKIndexes` version gate (`createOriginIndexes`
is `Settings != nil && !IsActive(NoOriginFKIndexes)`). -/
structure FKEnv where
  catalog : List TableDescriptor := []
  allowCrossDatabaseFKs : Bool := false
  createOriginIndexes : Bool := false
  deriving Repr, Inhabited

/-- Origin-column resolution loop (create_table.go:619-636): resolve
each name via FindActiveOrNewColumnByName and reject duplicate column
IDs with InvalidForeignKey.  (`CheckCanBeFKRef` is external to the
excerpt and not described by the spec; it is not modelled.) -/
def resolveOriginCols (tbl : TableDescriptor) :
    List String → List Nat → Except SQLError (List ColumnDescriptor)
  | [], _ => .ok []
  | n :: rest, seen =>
    match tbl.findActiveOrNewColumnByName n with
    | none => .error SQLError.undefinedColumn
    | some c =>
      if seen.contains c.id then .error SQLError.invalidForeignKey
      else
        match resolveOriginCols tbl rest (c.id :: seen) with
        | .error e => .error e
        | .ok cs => .ok (c :: cs)

/-- Modelled from the spec: `FindActiveColumnsByNames` — resolve every
name among the active columns or fail. -/
def findActiveColumnsByNames (t : TableDescriptor) :
    List String → Except SQLError (List ColumnDescriptor)
  | [] => .ok []
  | n :: rest =>
    match findColumnByName t.columns n with
    | none => .error SQLError.undefinedColumn
    | some c =>
      match findActiveColumnsByNames t rest with
      | .error e => .error e
      | .ok cs => .ok (c :: cs)

/-- The pairwise `Type.Equivalent` loop of create_table.go:704-710. -/
def typesEquivalentPairwise (origin referenced : List ColumnDescriptor) : Bool :=
  (origin.zip referenced).all (fun p => p.1.typ.Equivalent p.2.typ)

/-- Modelled from the spec: `tabledesc.FindFKOriginIndexInTxn` — an
index (primary, secondary, or added in this transaction as a mutation)
whose key columns start with the FK origin columns. -/
def hasFKOriginIndex (t : TableDescriptor) (originIDs : List Nat) : Bool :=
  (t.primaryIndex :: t.indexes ++ t.mutationIndexes).any
    (fun idx => originIDs.isPrefixOf idx.columnIDs)

/-- Modelled from the spec: `tabledesc.FindFKReferencedIndex` — a unique
index whose key columns are exactly the referenced columns. -/
def hasFKReferencedIndex (t : TableDescriptor) (refIDs : List Nat) : Bool :=
  (t.primaryIndex :: t.indexes).any
    (fun idx => idx.unique && idx.columnIDs == refIDs)

/-- addIndexForFK (create_table.go:848): synthesize an auto-named,
ascending, non-unique index over the FK origin columns, added directly
for a new table and as an index mutation otherwise, followed by
AllocateIDs in both cases. -/
def addIndexForFK (tbl : TableDescriptor) (srcCols : List ColumnDescriptor)
    (constraintName : String) (ts : FKTableState) : TableDescriptor :=
  let autoIndexName := generateUniqueConstraintName
    (tbl.name ++ "_auto_index_" ++ constraintName)
    (fun n => indexNameTaken tbl n)
  let idx : IndexDescriptor :=
    { name := autoIndexName
      columnNames := srcCols.map (fun c => c.name)
      columnDirections := srcCols.map (fun _ => Direction.asc) }
  if ts = FKTableState.newTable then
    allocateIndexIDs { tbl with indexes := tbl.indexes ++ [idx] }
  else
    allocateIndexIDs { tbl with mutations := tbl.mutations ++ [Mutation.addIndex idx] }

/-- Lines 662-673: if the target is the origin itself, alias it to the
same descriptor; otherwise a brand-new origin table gets State = ADD. -/
def fkTbl1 (tbl target0 : TableDescriptor) (ts : FKTableState) : TableDescriptor :=
  if target0.id == tbl.id then tbl
  else if ts = FKTableState.newTable then { tbl with state := DescriptorState.add }
  else tbl

/-- Lines 662-682: the target actually edited — the origin itself for a
self-reference, else the previously-resolved instance from the backrefs
map, else the freshly resolved descriptor. -/
def fkTarget1 (tbl tbl1 target0 : TableDescriptor)
    (backrefs : List TableDescriptor) : TableDescriptor :=
  if target0.id == tbl.id then tbl1
  else
    match lookupByID backrefs target0.id with
    | some prev => prev
    | none => target0

/-- Lines 677-681: the backrefs map after dedup/registration of the
target (unchanged for a self-reference). -/
def fkBackrefs1 (tbl target0 target1 : TableDescriptor)
    (backrefs : List TableDescriptor) : List TableDescriptor :=
  if target0.id == tbl.id then backrefs else upsertByID backrefs target1

/-- Lines 684-691: referenced column names default to the target's
primary key when unspecified. -/
def fkReferencedColNames (target : TableDescriptor) (d : ForeignKeyDef) :
    List String :=
  if d.toCols.isEmpty then target.primaryIndex.columnNames else d.toCols

/-- Lines 721-734: the constraint name — auto-generated as
`fk_<firstcol>_ref_<target>` with collision-avoidance when unnamed. -/
def fkConstraintName (tbl1 target : TableDescriptor) (d : ForeignKeyDef) : String :=
  if d.name == "" then
    generateUniqueConstraintName
      ("fk_" ++ d.fromCols.headD ("") ++ "_ref_" ++ target.name)
      (fun p => (constraintNames tbl1).contains p)
  else d.name

/-- Lines 775-807: below the NoOriginFKIndexes version, require a
supporting origin index, auto-creating one for new/empty tables and
failing with ForeignKeyViolation for non-empty tables. -/
def fkOriginIndexStep (env : FKEnv) (tbl1 : TableDescriptor)
    (originCols : List ColumnDescriptor) (constraintName : String)
    (ts : FKTableState) : Except SQLError TableDescriptor :=
  if env.createOriginIndexes
      && !(hasFKOriginIndex tbl1 (originCols.map (fun c => c.id))) then
    if ts = FKTableState.nonEmptyTable then .error SQLError.foreignKeyViolation
    else .ok (addIndexForFK tbl1 originCols constraintName ts)
  else .ok tbl1

/-- The data ResolveFK has assembled by line 834, just before the
constraint is recorded. -/
structure FKResolved where
  tbl : TableDescriptor
  target : TableDescriptor
  isSelf : Bool
  backrefs : List TableDescriptor
  ref : ForeignKeyConstraint
  deriving Repr, Inhabited

/-- ResolveFK, lines 619-834: every check in source order, ending with
the constructed ForeignKeyConstraint.  For a new table no validity is
assigned (the descpb zero value, Validated — the spec's "no separate
validity state needed at creation"); for existing tables skip-validation
yields Unvalidated, otherwise Validating. -/
def resolveFKChecks (env : FKEnv) (tbl : TableDescriptor) (d : ForeignKeyDef)
    (backrefs : List TableDescriptor) (ts : FKTableState)
    (vb : ValidationBehavior) : Except SQLError FKResolved :=
  match resolveOriginCols tbl d.fromCols [] with
  | .error e => .error e
  | .ok originCols =>
    match env.catalog.find? (fun t => t.name == d.targetTable) with
    | none => .error SQLError.undefinedTable
    | some target0 =>
      if target0.parentID != tbl.parentID && !env.allowCrossDatabaseFKs then
        .error SQLError.invalidForeignKey
      else if tbl.temporary != target0.temporary then
        .error SQLError.invalidTableDefinition
      else
        match findActiveColumnsByNames (fkTarget1 tbl (fkTbl1 tbl target0 ts) target0 backrefs)
            (fkReferencedColNames (fkTarget1 tbl (fkTbl1 tbl target0 ts) target0 backrefs) d) with
        | .error e => .error e
        | .ok referencedCols =>
          if referencedCols.length != originCols.length then
            .error SQLError.syntaxError
          else if !typesEquivalentPairwise originCols referencedCols then
            .error SQLError.datatypeMismatch
          else if d.name != ""
              && (constraintNames (fkTbl1 tbl target0 ts)).contains d.name then
            .error SQLError.duplicateObject
          else if (d.onDelete = FKAction.setNull ∨ d.onUpdate = FKAction.setNull)
              ∧ originCols.any (fun c => !c.nullable) then
            .error SQLError.invalidForeignKey
          else if (d.onDelete = FKAction.setDefault ∨ d.onUpdate = FKAction.setDefault)
              ∧ originCols.any (fun c => c.defaultExpr == none && !c.nullable) then
            .error SQLError.invalidForeignKey
          else
            match fkOriginIndexStep env (fkTbl1 tbl target0 ts) originCols
                (fkConstraintName (fkTbl1 tbl target0 ts)
                  (fkTarget1 tbl (fkTbl1 tbl target0 ts) target0 backrefs) d) ts with
            | .error e => .error e
            | .ok tbl2 =>
              if !(hasFKReferencedIndex
                    (if target0.id == tbl.id then tbl2
                     else fkTarget1 tbl (fkTbl1 tbl target0 ts) target0 backrefs)
                    (referencedCols.map (fun c => c.id))) then
                .error SQLError.foreignKeyViolation
              else
                .ok { tbl := tbl2
                      target := fkTarget1 tbl (fkTbl1 tbl target0 ts) target0 backrefs
                      isSelf := target0.id == tbl.id
                      backrefs := fkBackrefs1 tbl target0
                        (fkTarget1 tbl (fkTbl1 tbl target0 ts) target0 backrefs) backrefs
                      ref :=
                        { originTableID := tbl2.id
                          originColumnIDs := originCols.map (fun c => c.id)
                          referencedColumnIDs := referencedCols.map (fun c => c.id)
                          referencedTableID :=
                            (fkTarget1 tbl (fkTbl1 tbl target0 ts) target0 backrefs).id
                          name := fkConstraintName (fkTbl1 tbl target0 ts)
                            (fkTarget1 tbl (fkTbl1 tbl target0 ts) target0 backrefs) d
                          validity :=
                            if ts ≠ FKTableState.newTable then
                              (if vb = ValidationBehavior.validationSkip then
                                ConstraintValidity.unvalidated
                              else ConstraintValidity.validating)
                            else ConstraintValidity.validated
                          onDelete := d.onDelete
                          onUpdate := d.onUpdate
                          matchMethod := d.matchMethod } }

/-- Lines 836-843: record the constraint — appended to the origin's
OutboundFKs and the target's InboundFKs for a new table (both sides of a
self-reference land on the single aliased descriptor), queued as an ADD
foreign-key mutation for an existing table. -/
def resolveFKCommit (ts : FKTableState) (r : FKResolved) :
    TableDescriptor × List TableDescriptor :=
  if ts = FKTableState.newTable then
    if r.isSelf then
      ({ r.tbl with outboundFKs := r.tbl.outboundFKs ++ [r.ref]
                    inboundFKs := r.tbl.inboundFKs ++ [r.ref] }, r.backrefs)
    else
      ({ r.tbl with outboundFKs := r.tbl.outboundFKs ++ [r.ref] },
       upsertByID r.backrefs
         { r.target with inboundFKs := r.target.inboundFKs ++ [r.ref] })
  else
    ({ r.tbl with mutations := r.tbl.mutations ++ [Mutation.addForeignKey r.ref] },
     r.backrefs)

/-- ResolveFK (create_table.go:608): all checks, then the commit of the
constructed constraint. -/
def resolveFK (env : FKEnv) (tbl : TableDescriptor) (d : ForeignKeyDef)
    (backrefs : List TableDescriptor) (ts : FKTableState)
    (vb : ValidationBehavior) :
    Except SQLError (TableDescriptor × List TableDescriptor) :=
  match resolveFKChecks env tbl d backrefs ts vb with
  | .error e => .error e
  | .ok r => .ok (resolveFKCommit ts r)

/-! ## addInterleave (create_table.go lines 908-997).

The parent table is passed already resolved (the name resolution through
`resolver.ResolveExistingTableObject` is external to the excerpt); the
rest follows the source line by line.  SharedPrefixLen is a uint32 in
descpb, so the subtraction loop at lines 990-992 is carried out modulo
2^32. -/

inductive DropBehavior where
  | dropDefault
  | dropRestrict
  | dropCascade
  deriving DecidableEq, Repr, Inhabited

structure InterleaveDef where
  fields : List String := []
  dropBehavior : DropBehavior := .dropDefault
  deriving DecidableEq, Repr, Inhabited

/-- The per-column loop of addInterleave (lines 955-981), driven by the
parent primary index's column IDs.  Each parent key column is resolved
on the parent, the child column at the same position is resolved on the
child, the interleave field must name the child column, and the child
column must have the identical type and the same sort direction as the
parent key column.  The final catch-all stands for the out-of-range
panic Go would hit on misaligned descriptors; the length checks before
the loop prevent it. -/
def addInterleaveLoop (parent desc : TableDescriptor) :
    List String → List Nat → List Direction → List Nat → List Direction →
    Except SQLError Unit
  | _, [], _, _, _ => .ok ()
  | f :: fs, pid :: pids, pd :: pds, cid :: cids, cd :: cds =>
    match parent.findColumnByID pid with
    | none => .error SQLError.undefinedColumn
    | some targetCol =>
      match desc.findColumnByID cid with
      | none => .error SQLError.undefinedColumn
      | some col =>
        if f ≠ col.name then .error SQLError.invalidSchemaDefinition
        else if !(col.typ.Identical targetCol.typ) || cd ≠ pd then
          .error SQLError.invalidSchemaDefinition
        else addInterleaveLoop parent desc fs pids pds cids cds
  | _, _, _, _, _ => .error SQLError.assertionFailed

/-- The uint32 subtraction loop at lines 990-992:
`intl.SharedPrefixLen -= ancestor.SharedPrefixLen` over the parent's own
inherited ancestors. -/
def subPrefixLoop (s : Nat) (l : List InterleaveAncestor) : Nat :=
  l.foldl (fun s a => (s + 2 ^ 32 - a.sharedPrefixLen % 2 ^ 32) % 2 ^ 32) s

/-- addInterleave (create_table.go:908): validate the interleave shape
against the parent's primary index and, on success, extend the child
index's ancestor chain and put the child table in the ADD state. -/
def addInterleave (parentTable desc : TableDescriptor)
    (index : IndexDescriptor) (ileave : InterleaveDef) :
    Except SQLError (TableDescriptor × IndexDescriptor) :=
  if ileave.dropBehavior ≠ DropBehavior.dropDefault then
    .error SQLError.featureNotSupported
  else if ileave.fields.length ≠ parentTable.primaryIndex.columnIDs.length then
    .error SQLError.invalidSchemaDefinition
  else if ileave.fields.length > index.columnIDs.length then
    .error SQLError.invalidSchemaDefinition
  else
    match addInterleaveLoop parentTable desc ileave.fields
        parentTable.primaryIndex.columnIDs
        parentTable.primaryIndex.columnDirections
        index.columnIDs index.columnDirections with
    | .error e => .error e
    | .ok _ =>
      let ancestorPref := parentTable.primaryIndex.interleaveAncestors
      let intl : InterleaveAncestor :=
        { tableID := parentTable.id
          indexID := parentTable.primaryIndex.id
          sharedPrefixLen :=
            subPrefixLoop (parentTable.primaryIndex.columnIDs.length % 2 ^ 32)
              ancestorPref }
      .ok ({ desc with state := DescriptorState.add },
           { index with interleaveAncestors := ancestorPref ++ [intl] })

/-! ## The state-gating step of startExec (create_table.go lines
313-330): a freshly built descriptor in the ADD state becomes PUBLIC
exactly when every forward reference is an uncommitted descriptor newly
created in this transaction.  `refs` stands for the IDs returned by
`FindAllReferences` and `isNewUncommitted id` for
`GetUncommittedTableByID(id) != nil && IsNew()` (both external to the
excerpt). -/

def gateTableState (desc : TableDescriptor) (refs : List Nat)
    (isNewUncommitted : Nat → Bool) : TableDescriptor :=
  if desc.state = DescriptorState.add then
    if refs.all isNewUncommitted then { desc with state := DescriptorState.publicState }
    else desc
  else desc

/-! ## getTableCreateParams (create_table.go lines 132-209) and the
IF NOT EXISTS suppression at the top of startExec (lines 214-220). -/

/-- The kind of the object an ID resolves to
(catalogkv.GetAnyDescriptorByID, external). -/
inductive DescKind where
  | tableKind
  | typeKind
  | databaseKind
  | schemaKind
  deriving DecidableEq, Repr, Inhabited

/-- The object-name key under which the new table would be stored. -/
structure DescriptorKey where
  dbID : Nat := 0
  schemaID : Nat := 0
  name : String := ""
  deriving DecidableEq, Repr, Inhabited

inductive Persistence where
  | permanent
  | temporaryP
  | unlogged
  deriving DecidableEq, Repr, Inhabited

/-- The collaborators getTableCreateParams consults, in call order:
the built-in type-alias names of the public schema
(types.PublicSchemaAliases), the temp-tables session setting, the
session's temporary schema, schema-name resolution
(getSchemaIDForCreate), the permission check (canCreateOnSchema), the
existing-object lookup (catalogkv.LookupObjectID) and the by-ID
descriptor fetch (catalogkv.GetAnyDescriptorByID).  All are external to
the excerpt and are passed in as resolved outcomes. -/
structure CreateParamsEnv where
  publicSchemaAliases : List String := []
  tempTablesEnabled : Bool := false
  tempSchemaID : Nat := 0
  schemaIDForCreate : Except SQLError Nat := .ok 0
  canCreateOnSchema : Bool := true
  lookupObjectID : Option Nat := none
  descByID : Nat → Option DescKind := fun _ => none
  deriving Inhabited

/-- `sqlerrors.MakeObjectAlreadyExistsError`, specialized by the kind of
the colliding descriptor (only a relation collision satisfies
`IsRelationAlreadyExistsError`). -/
def alreadyExistsErrorFor (k : DescKind) : SQLError :=
  match k with
  | .tableKind => SQLError.relationAlreadyExists
  | .typeKind => SQLError.typeAlreadyExists
  | _ => SQLError.objectAlreadyExists

def isRelationAlreadyExistsErr (e : SQLError) : Bool :=
  e = SQLError.relationAlreadyExists

/-- getTableCreateParams (create_table.go:132): returns the table key
and schema ID; on a name collision it still returns both, together with
the AlreadyExists error ("Still return data in this case.",
line 203-204).  Every other failure returns (none, 0, error). -/
def getTableCreateParams (env : CreateParamsEnv) (dbID : Nat)
    (persistence : Persistence) (tableSchema tableName : String) :
    Option DescriptorKey × Nat × Option SQLError :=
  if tableSchema == "public" && env.publicSchemaAliases.contains tableName then
    (none, 0, some SQLError.typeAlreadyExists)
  else
    match (if persistence = Persistence.temporaryP then
            (if !env.tempTablesEnabled then Except.error SQLError.featureNotSupported
             else Except.ok env.tempSchemaID)
          else env.schemaIDForCreate) with
    | .error e => (none, 0, some e)
    | .ok schemaID =>
      if !env.canCreateOnSchema then (none, 0, some SQLError.insufficientPrivilege)
      else
        let tKey : DescriptorKey :=
          { dbID := dbID, schemaID := schemaID, name := tableName }
        match env.lookupObjectID with
        | some objID =>
          match env.descByID objID with
          | none => (none, 0, some SQLError.assertionFailed)
          | some k => (some tKey, schemaID, some (alreadyExistsErrorFor k))
        | none => (some tKey, schemaID, none)

/-- The error handling at the top of startExec (lines 214-220): an
AlreadyExists error from getTableCreateParams is suppressed into a
successful no-op when IF NOT EXISTS was given; any other error
propagates. -/
def startExecCreateCheck
    (res : Option DescriptorKey × Nat × Option SQLError)
    (ifNotExists : Bool) : Except SQLError Unit :=
  match res.2.2 with
  | some e =>
    if isRelationAlreadyExistsErr e && ifNotExists then .ok () else .error e
  | none => .ok ()

/-! ## Concrete scenarios.

Scenario B: `CREATE TABLE child (a INT REFERENCES parent(a))` with an
existing empty `parent`, run below the NoOriginFKIndexes version so that
origin indexes are still auto-created. -/

def parentB : TableDescriptor :=
  { id := 2
    parentID := 1
    name := "parent"
    columns := [{ id := 1, name := "a", typ := SqlType.int8, nullable := false }]
    primaryIndex :=
      { id := 1, name := "primary", unique := true, columnIDs := [1]
        columnNames := ["a"], columnDirections := [Direction.asc] } }

def childB : TableDescriptor :=
  { id := 3
    parentID := 1
    name := "child"
    columns :=
      [{ id := 1, name := "a", typ := SqlType.int8 },
       { id := 2, name := "rowid", typ := SqlType.int8, nullable := false
         hidden := true, defaultExpr := some ("unique_rowid()") }]
    primaryIndex :=
      { id := 1, name := "primary", unique := true, columnIDs := [2]
        columnNames := ["rowid"], columnDirections := [Direction.asc] } }

def envB : FKEnv :=
  { catalog := [parentB], createOriginIndexes := true }

def fkDefB : ForeignKeyDef :=
  { targetTable := "parent", fromCols := ["a"], toCols := ["a"] }

/-- The result of ResolveFK in scenario B (with default validation
behavior). -/
def resolveB : Except SQLError (TableDescriptor × List TableDescriptor) :=
  resolveFK envB childB fkDefB [] FKTableState.newTable
    ValidationBehavior.validationDefault

/-- Scenario SELF: a new table `t(a INT PRIMARY KEY)` with a foreign key
referencing itself; the catalog resolves `t` to the in-progress
descriptor (the fkSelfResolver). -/
def tableSelf : TableDescriptor :=
  { id := 4
    parentID := 1
    name := "t"
    columns := [{ id := 1, name := "a", typ := SqlType.int8, nullable := false }]
    primaryIndex :=
      { id := 1, name := "primary", unique := true, columnIDs := [1]
        columnNames := ["a"], columnDirections := [Direction.asc] } }

def envSelf : FKEnv := { catalog := [tableSelf] }

def fkDefSelf : ForeignKeyDef :=
  { targetTable := "t", fromCols := ["a"], toCols := ["a"] }

def resolveSelf : Except SQLError (TableDescriptor × List TableDescriptor) :=
  resolveFK envSelf tableSelf fkDefSelf [] FKTableState.newTable
    ValidationBehavior.validationDefault

/-- Scenario SETNULL: `child2` declares its FK origin column NOT NULL
and asks for ON DELETE SET NULL. -/
def childSetNull : TableDescriptor :=
  { id := 5
    parentID := 1
    name := "child2"
    columns := [{ id := 1, name := "a", typ := SqlType.int8, nullable := false }]
    primaryIndex :=
      { id := 1, name := "primary", unique := true, columnIDs := [1]
        columnNames := ["a"], columnDirections := [Direction.asc] } }

def fkDefSetNull : ForeignKeyDef :=
  { targetTable := "parent", fromCols := ["a"], toCols := ["a"]
    onDelete := FKAction.setNull }

/-- Scenario C: `CREATE TABLE t (a INT PRIMARY KEY USING HASH WITH
BUCKET_COUNT=4)`. -/
def descC0 : TableDescriptor := { id := 52, parentID := 50, name := "t" }

def defsC : List TableDef :=
  [TableDef.columnDef
    { name := "a", typ := SqlType.int8, isPrimaryKey := true
      sharded := true, shardBuckets := 4 }]

def builtC : TableDescriptor := newTableDescColumnsAndChecks defsC descC0

/-- Scenario INTERLEAVE: parent `p2(g, h)` (itself interleaved into a
grandparent with shared prefix 1) and a child index over (g, h, k). -/
def parentIl : TableDescriptor :=
  { id := 7
    parentID := 1
    name := "p2"
    columns :=
      [{ id := 1, name := "g", typ := SqlType.int8, nullable := false },
       { id := 2, name := "h", typ := SqlType.int8, nullable := false }]
    primaryIndex :=
      { id := 1, name := "primary", unique := true, columnIDs := [1, 2]
        columnNames := ["g", "h"]
        columnDirections := [Direction.asc, Direction.asc]
        interleaveAncestors := [{ tableID := 9, indexID := 1, sharedPrefixLen := 1 }] } }

def childIl : TableDescriptor :=
  { id := 8
    parentID := 1
    name := "c2"
    columns :=
      [{ id := 1, name := "g", typ := SqlType.int8, nullable := false },
       { id := 2, name := "h", typ := SqlType.int8, nullable := false },
       { id := 3, name := "k", typ := SqlType.int8, nullable := false }] }

def childIlIndex : IndexDescriptor :=
  { id := 1, name := "primary", unique := true, columnIDs := [1, 2, 3]
    columnNames := ["g", "h", "k"]
    columnDirections := [Direction.asc, Direction.asc, Direction.asc] }

def ileaveIl : InterleaveDef := { fields := ["g", "h"] }

/-- Scenario NAMEMISMATCH: a parent whose primary-key column is named
`p`, while the child column (and interleave field) is named `c`; types
and directions match. -/
def parentNm : TableDescriptor :=
  { id := 10
    parentID := 1
    name := "pn"
    columns := [{ id := 1, name := "p", typ := SqlType.int8, nullable := false }]
    primaryIndex :=
      { id := 1, name := "primary", unique := true, columnIDs := [1]
        columnNames := ["p"], columnDirections := [Direction.asc] } }

def childNm : TableDescriptor :=
  { id := 11
    parentID := 1
    name := "cn"
    columns := [{ id := 1, name := "c", typ := SqlType.int8, nullable := false }]
    primaryIndex :=
      { id := 1, name := "primary", unique := true, columnIDs := [1]
        columnNames := ["c"], columnDirections := [Direction.asc] } }

def childNmIndex : IndexDescriptor :=
  { id := 1, name := "primary", unique := true, columnIDs := [1]
    columnNames := ["c"], columnDirections := [Direction.asc] }

def ileaveNm : InterleaveDef := { fields := ["c"] }

def isOkE {α β : Type} (e : Except α β) : Bool :=
  match e with
  | .ok _ => true
  | .error _ => false

/-- Resolve a list of column IDs on a table, all-or-nothing (used to
state descriptor well-formedness: every key column ID of an index
resolves). -/
def findColumnsByIDs (t : TableDescriptor) : List Nat → Option (List ColumnDescriptor)
  | [] => some []
  | i :: rest =>
    match t.findColumnByID i with
    | none => none
    | some c =>
      match findColumnsByIDs t rest with
      | none => none
      | some cs => some (c :: cs)

/-- The result of ResolveFK in scenario B, as a value (used to
instantiate hypotheses at a concrete input). -/
def resolveBOut : TableDescriptor × List TableDescriptor :=
  match resolveB with
  | .ok o => o
  | .error _ => default

/-- The result of ResolveFK in the self-reference scenario, as a
value. -/
def resolveSelfOut : TableDescriptor × List TableDescriptor :=
  match resolveSelf with
  | .ok o => o
  | .error _ => default

/-- The result of addInterleave in the interleave scenario, as a
value. -/
def addIlOut : TableDescriptor × IndexDescriptor :=
  match addInterleave parentIl childIl childIlIndex ileaveIl with
  | .ok o => o
  | .error _ => default

/-- The expected foreign-key record of scenario B. -/
def refB : ForeignKeyConstraint :=
  { originTableID := 3
    originColumnIDs := [1]
    referencedColumnIDs := [1]
    referencedTableID := 2
    name := "fk_a_ref_parent"
    validity := ConstraintValidity.validated }

/-- A table in the ADD state for the state-gating scenario. -/
def descGate : TableDescriptor :=
  { id := 30, parentID := 1, name := "gt", state := DescriptorState.add }

/-- A create-params environment in which the requested name collides
with an existing table (ID 77) in schema 29. -/
def envCP : CreateParamsEnv :=
  { schemaIDForCreate := Except.ok 29
    lookupObjectID := some 77
    descByID := fun i => if i == 77 then some DescKind.tableKind else none }

/-! ## Helper lemmas. -/

theorem allocateIndexIDs_outbound (t : TableDescriptor) :
    (allocateIndexIDs t).outboundFKs = t.outboundFKs := rfl

theorem allocateIndexIDs_inbound (t : TableDescriptor) :
    (allocateIndexIDs t).inboundFKs = t.inboundFKs := rfl

theorem allocateIndexIDs_id (t : TableDescriptor) :
    (allocateIndexIDs t).id = t.id := rfl

theorem allocateMutationIndexes_fk (cols : List ColumnDescriptor)
    (ms : List Mutation) (next : Nat) :
    ((allocateMutationIndexes cols ms next).1).filterMap
        (fun m => match m with | .addForeignKey fk => some fk | _ => none) =
      ms.filterMap
        (fun m => match m with | .addForeignKey fk => some fk | _ => none) := by
  induction ms generalizing next with
  | nil => simp [allocateMutationIndexes]
  | cons m rest ih =>
    cases m with
    | addIndex idx => simp [allocateMutationIndexes, ih]
    | addColumn c => simp [allocateMutationIndexes, ih]
    | addForeignKey fk => simp [allocateMutationIndexes, ih]

theorem allocateIndexIDs_fkMutations (t : TableDescriptor) :
    fkMutations (allocateIndexIDs t) = fkMutations t := by
  simp only [fkMutations, allocateIndexIDs]
  exact allocateMutationIndexes_fk t.columns t.mutations _

theorem addIndexForFK_outbound (t : TableDescriptor)
    (s : List ColumnDescriptor) (n : String) (ts : FKTableState) :
    (addIndexForFK t s n ts).outboundFKs = t.outboundFKs := by
  unfold addIndexForFK
  split <;> rw [allocateIndexIDs_outbound]

theorem addIndexForFK_inbound (t : TableDescriptor)
    (s : List ColumnDescriptor) (n : String) (ts : FKTableState) :
    (addIndexForFK t s n ts).inboundFKs = t.inboundFKs := by
  unfold addIndexForFK
  split <;> rw [allocateIndexIDs_inbound]

theorem addIndexForFK_id (t : TableDescriptor)
    (s : List ColumnDescriptor) (n : String) (ts : FKTableState) :
    (addIndexForFK t s n ts).id = t.id := by
  unfold addIndexForFK
  split <;> rw [allocateIndexIDs_id]

theorem addIndexForFK_fkMutations (t : TableDescriptor)
    (s : List ColumnDescriptor) (n : String) (ts : FKTableState) :
    fkMutations (addIndexForFK t s n ts) = fkMutations t := by
  unfold addIndexForFK
  split
  · rw [allocateIndexIDs_fkMutations]
    rfl
  · rw [allocateIndexIDs_fkMutations]
    simp [fkMutations]

theorem fkTbl1_id (tbl target0 : TableDescriptor) (ts : FKTableState) :
    (fkTbl1 tbl target0 ts).id = tbl.id := by
  unfold fkTbl1
  split <;> try rfl
  split <;> rfl

theorem fkTbl1_outbound (tbl target0 : TableDescriptor) (ts : FKTableState) :
    (fkTbl1 tbl target0 ts).outboundFKs = tbl.outboundFKs := by
  unfold fkTbl1
  split <;> try rfl
  split <;> rfl

theorem fkTbl1_inbound (tbl target0 : TableDescriptor) (ts : FKTableState) :
    (fkTbl1 tbl target0 ts).inboundFKs = tbl.inboundFKs := by
  unfold fkTbl1
  split <;> try rfl
  split <;> rfl

theorem fkTbl1_fkMutations (tbl target0 : TableDescriptor) (ts : FKTableState) :
    fkMutations (fkTbl1 tbl target0 ts) = fkMutations tbl := by
  unfold fkTbl1
  split <;> try rfl
  split <;> rfl

theorem fkOriginIndexStep_ok (env : FKEnv) (t1 : TableDescriptor)
    (cols : List ColumnDescriptor) (nm : String) (ts : FKTableState)
    (t2 : TableDescriptor)
    (h : fkOriginIndexStep env t1 cols nm ts = Except.ok t2) :
    t2.id = t1.id ∧ t2.outboundFKs = t1.outboundFKs ∧
      t2.inboundFKs = t1.inboundFKs ∧ fkMutations t2 = fkMutations t1 := by
  unfold fkOriginIndexStep at h
  split at h
  · split at h
    · simp at h
    · rw [Except.ok.injEq] at h
      subst h
      exact ⟨addIndexForFK_id _ _ _ _, addIndexForFK_outbound _ _ _ _,
        addIndexForFK_inbound _ _ _ _, addIndexForFK_fkMutations _ _ _ _⟩
  · rw [Except.ok.injEq] at h
    subst h
    exact ⟨rfl, rfl, rfl, rfl⟩

theorem lookupByID_id (l : List TableDescriptor) (i : Nat) (x : TableDescriptor)
    (h : lookupByID l i = some x) : x.id = i := by
  have := List.find?_some h
  simpa using this

theorem fkTarget1_id_not_self (tbl tbl1 target0 : TableDescriptor)
    (backrefs : List TableDescriptor) (h : (target0.id == tbl.id) = false) :
    (fkTarget1 tbl tbl1 target0 backrefs).id = target0.id := by
  unfold fkTarget1
  rw [if_neg (by simp [h])]
  split
  · next prev hprev => exact lookupByID_id _ _ _ hprev
  · rfl

theorem fkTarget1_self (tbl tbl1 target0 : TableDescriptor)
    (backrefs : List TableDescriptor) (h : (target0.id == tbl.id) = true) :
    fkTarget1 tbl tbl1 target0 backrefs = tbl1 := by
  unfold fkTarget1
  rw [if_pos (by simp_all)]

theorem upsertByID_upsertByID (l : List TableDescriptor)
    (t u : TableDescriptor) (h : u.id = t.id) :
    upsertByID (upsertByID l t) u = upsertByID l u := by
  induction l with
  | nil => simp [upsertByID, h]
  | cons x xs ih =>
    by_cases hx : x.id = t.id
    · simp [upsertByID, hx, h]
    · simp only [upsertByID]
      rw [if_neg (by simp [hx]), if_neg (by simp [h, hx])]
      simp only [upsertByID]
      rw [if_neg (by simp [h, hx]), ih]

/-- Core facts about the state assembled by the checks phase, given a
successful origin-index step. -/
theorem fkShapeCore (env : FKEnv) (tbl target0 tbl2 : TableDescriptor)
    (backrefs : List TableDescriptor) (ts : FKTableState)
    (originCols : List ColumnDescriptor) (cname : String)
    (hstep : fkOriginIndexStep env (fkTbl1 tbl target0 ts) originCols cname ts
      = Except.ok tbl2) :
    tbl2.id = tbl.id ∧
    tbl2.outboundFKs = tbl.outboundFKs ∧
    tbl2.inboundFKs = tbl.inboundFKs ∧
    fkMutations tbl2 = fkMutations tbl ∧
    ((target0.id == tbl.id) = true →
      fkBackrefs1 tbl target0
          (fkTarget1 tbl (fkTbl1 tbl target0 ts) target0 backrefs) backrefs
        = backrefs
      ∧ (fkTarget1 tbl (fkTbl1 tbl target0 ts) target0 backrefs).id = tbl.id) ∧
    ((target0.id == tbl.id) = false →
      fkBackrefs1 tbl target0
          (fkTarget1 tbl (fkTbl1 tbl target0 ts) target0 backrefs) backrefs
        = upsertByID backrefs (fkTarget1 tbl (fkTbl1 tbl target0 ts) target0 backrefs)
      ∧ (fkTarget1 tbl (fkTbl1 tbl target0 ts) target0 backrefs).id ≠ tbl.id) := by
  obtain ⟨hid2, hout2, hin2, hmut2⟩ := fkOriginIndexStep_ok _ _ _ _ _ _ hstep
  refine ⟨?_, ?_, ?_, ?_, ?_, ?_⟩
  · rw [hid2, fkTbl1_id]
  · rw [hout2, fkTbl1_outbound]
  · rw [hin2, fkTbl1_inbound]
  · rw [hmut2, fkTbl1_fkMutations]
  · intro hself
    refine ⟨?_, ?_⟩
    · simp only [fkBackrefs1]
      rw [if_pos hself]
    · rw [fkTarget1_self _ _ _ _ hself, fkTbl1_id]
  · intro hnself
    refine ⟨?_, ?_⟩
    · simp only [fkBackrefs1]
      rw [if_neg (by simp [hnself])]
    · rw [fkTarget1_id_not_self _ _ _ _ hnself]
      simpa using hnself

set_option maxHeartbeats 2000000 in
/-- Everything resolveFKChecks guarantees about its result: the checks
phase never touches the origin's FK lists or FK mutations, the
constructed ref points from the origin to the resolved target, a
self-reference leaves the backrefs map untouched, and a non-self target
is registered in the backrefs map under its own ID. -/
theorem resolveFKChecks_shape (env : FKEnv) (tbl : TableDescriptor)
    (d : ForeignKeyDef) (backrefs : List TableDescriptor)
    (ts : FKTableState) (vb : ValidationBehavior) (r : FKResolved)
    (h : resolveFKChecks env tbl d backrefs ts vb = Except.ok r) :
    r.tbl.id = tbl.id ∧
    r.tbl.outboundFKs = tbl.outboundFKs ∧
    r.tbl.inboundFKs = tbl.inboundFKs ∧
    fkMutations r.tbl = fkMutations tbl ∧
    r.ref.originTableID = tbl.id ∧
    r.ref.referencedTableID = r.target.id ∧
    (r.isSelf = true → r.backrefs = backrefs ∧ r.target.id = tbl.id) ∧
    (r.isSelf = false →
      r.backrefs = upsertByID backrefs r.target ∧ r.target.id ≠ tbl.id) ∧
    (∀ t0, env.catalog.find? (fun t => t.name == d.targetTable) = some t0 →
      r.isSelf = (t0.id == tbl.id)) := by
  unfold resolveFKChecks at h
  split at h
  · exact Except.noConfusion h
  · next originCols hoc =>
    split at h
    · exact Except.noConfusion h
    · next target0 hfind =>
      split at h
      · exact Except.noConfusion h
      · split at h
        · exact Except.noConfusion h
        · split at h
          · exact Except.noConfusion h
          · next referencedCols hrc =>
            split at h
            · exact Except.noConfusion h
            · split at h
              · exact Except.noConfusion h
              · split at h
                · exact Except.noConfusion h
                · split at h
                  · exact Except.noConfusion h
                  · split at h
                    · exact Except.noConfusion h
                    · split at h
                      · exact Except.noConfusion h
                      · next tbl2 hstep =>
                        split at h <;> split at h
                        any_goals exact Except.noConfusion h
                        all_goals
                          rw [Except.ok.injEq] at h
                          subst h
                          obtain ⟨c1, c2, c3, c4, c5, c6⟩ :=
                            fkShapeCore env tbl target0 tbl2 backrefs ts _ _ hstep
                          exact ⟨c1, c2, c3, c4, c1, rfl,
                            fun hs => c5 hs,
                            fun hns => c6 hns,
                            fun t0 ht0 => by
                              rw [hfind, Option.some.injEq] at ht0
                              subst ht0
                              rfl⟩

/-! ## Claim theorems. -/

/-- C5.  For every successful ResolveFK call on a new table the
constructed ForeignKeyConstraint record is appended to exactly one
origin table's OutboundFKs and exactly one target table's InboundFKs —
the same record `ref` on both sides, so the origin/referenced column-ID
lists, name, actions and match method of the two appended entries are
identical; a self-reference appends both entries to the single aliased
descriptor and leaves the backrefs map untouched, while a non-self
target has exactly its own entry of the backrefs map extended
(`upsertByID` replaces exactly the entry with the target's ID and keeps
every other table untouched).  For an existing table the constraint is
instead registered as a single pending ADD foreign-key mutation on the
origin, with no FK list of any descriptor modified. -/
theorem resolveFK_bidirectional_registration (env : FKEnv)
    (tbl : TableDescriptor) (d : ForeignKeyDef)
    (backrefs : List TableDescriptor) (ts : FKTableState)
    (vb : ValidationBehavior) (out : TableDescriptor × List TableDescriptor)
    (h : resolveFK env tbl d backrefs ts vb = Except.ok out) :
    ∃ ref : ForeignKeyConstraint,
      ref.originTableID = tbl.id ∧
      (ts = FKTableState.newTable →
        out.1.outboundFKs = tbl.outboundFKs ++ [ref] ∧
        ((ref.referencedTableID = tbl.id ∧
            out.1.inboundFKs = tbl.inboundFKs ++ [ref] ∧ out.2 = backrefs)
         ∨ (ref.referencedTableID ≠ tbl.id ∧
            out.1.inboundFKs = tbl.inboundFKs ∧
            ∃ tgt : TableDescriptor, tgt.id = ref.referencedTableID ∧
              out.2 = upsertByID backrefs
                { tgt with inboundFKs := tgt.inboundFKs ++ [ref] }))) ∧
      (ts ≠ FKTableState.newTable →
        out.1.outboundFKs = tbl.outboundFKs ∧
        out.1.inboundFKs = tbl.inboundFKs ∧
        fkMutations out.1 = fkMutations tbl ++ [ref] ∧
        (out.2 = backrefs ∨
          ∃ tgt : TableDescriptor, out.2 = upsertByID backrefs tgt)) := by
  unfold resolveFK at h
  split at h
  · exact Except.noConfusion h
  · next r hc =>
    rw [Except.ok.injEq] at h
    subst h
    obtain ⟨hid, hout, hin, hmut, horig, hrefid, hselfc, hnselfc, _⟩ :=
      resolveFKChecks_shape _ _ _ _ _ _ _ hc
    refine ⟨r.ref, horig, ?_, ?_⟩
    · intro hts
      subst hts
      unfold resolveFKCommit
      rw [if_pos rfl]
      by_cases hs : r.isSelf = true
      · rw [if_pos hs]
        obtain ⟨hb, htid⟩ := hselfc hs
        refine ⟨by simp [hout], Or.inl ⟨by rw [hrefid, htid], by simp [hin], hb⟩⟩
      · rw [if_neg hs]
        obtain ⟨hb, hneq⟩ := hnselfc (by simpa using hs)
        refine ⟨by simp [hout], Or.inr ⟨by rw [hrefid]; exact hneq, by simp [hin], r.target, hrefid.symm, ?_⟩⟩
        simp only
        rw [hb]
        exact upsertByID_upsertByID backrefs r.target _ rfl
    · intro hts
      unfold resolveFKCommit
      rw [if_neg hts]
      refine ⟨by simp [hout], by simp [hin], ?_, ?_⟩
      · show fkMutations { r.tbl with mutations := r.tbl.mutations ++ [Mutation.addForeignKey r.ref] } = _
        simp [fkMutations, List.filterMap_append] at *
        exact hmut
      · by_cases hs : r.isSelf = true
        · exact Or.inl (hselfc hs).1
        · exact Or.inr ⟨r.target, (hnselfc (by simpa using hs)).1⟩

/-- C6.  When ResolveFK resolves a foreign key whose target is the
origin table itself (the resolver finds a descriptor with the origin's
own ID), the target is aliased to the same in-memory descriptor: on
success no entry is added to the backrefs map, and the single resulting
table instance carries both the self-referencing outbound and inbound
entry — the same record appended once to each list of one descriptor,
never two divergent copies. -/
theorem resolveFK_self_reference_single_instance (env : FKEnv)
    (tbl : TableDescriptor) (d : ForeignKeyDef)
    (backrefs : List TableDescriptor) (vb : ValidationBehavior)
    (out : TableDescriptor × List TableDescriptor) (target0 : TableDescriptor)
    (hfind : env.catalog.find? (fun t => t.name == d.targetTable) = some target0)
    (hself : target0.id = tbl.id)
    (h : resolveFK env tbl d backrefs FKTableState.newTable vb = Except.ok out) :
    out.2 = backrefs ∧
    ∃ ref : ForeignKeyConstraint,
      out.1.outboundFKs = tbl.outboundFKs ++ [ref] ∧
      out.1.inboundFKs = tbl.inboundFKs ++ [ref] ∧
      ref.originTableID = tbl.id ∧ ref.referencedTableID = tbl.id := by
  unfold resolveFK at h
  split at h
  · exact Except.noConfusion h
  · next r hc =>
    rw [Except.ok.injEq] at h
    subst h
    obtain ⟨hid, hout, hin, hmut, horig, hrefid, hselfc, hnselfc, hfindc⟩ :=
      resolveFKChecks_shape _ _ _ _ _ _ _ hc
    have hselfb : r.isSelf = true := by
      rw [hfindc target0 hfind]
      simp [hself]
    obtain ⟨hb, htid⟩ := hselfc hselfb
    unfold resolveFKCommit
    rw [if_pos rfl, if_pos hselfb]
    exact ⟨hb, r.ref, by simp [hout], by simp [hin], horig, by rw [hrefid, htid]⟩

/-- C7.  ResolveFK rejects with InvalidForeignKey every FK definition
whose delete or update action is SET NULL while some origin column is
NOT NULL, and every FK definition whose delete or update action is SET
DEFAULT while some origin column is NOT NULL and has no default
expression.  The hypotheses state that the checks preceding the action
checks pass; the error is produced before the constraint is appended to
any descriptor — the Except-style embedding returns no updated
descriptors at all on this path, so no descriptor mutation survives. -/
theorem resolveFK_set_actions_not_null_rejected (env : FKEnv)
    (tbl : TableDescriptor) (d : ForeignKeyDef)
    (backrefs : List TableDescriptor) (ts : FKTableState)
    (vb : ValidationBehavior)
    (originCols referencedCols : List ColumnDescriptor)
    (target0 : TableDescriptor)
    (h1 : resolveOriginCols tbl d.fromCols [] = Except.ok originCols)
    (h2 : env.catalog.find? (fun t => t.name == d.targetTable) = some target0)
    (h3 : (target0.parentID != tbl.parentID && !env.allowCrossDatabaseFKs) = false)
    (h4 : (tbl.temporary != target0.temporary) = false)
    (h5 : findActiveColumnsByNames
            (fkTarget1 tbl (fkTbl1 tbl target0 ts) target0 backrefs)
            (fkReferencedColNames
              (fkTarget1 tbl (fkTbl1 tbl target0 ts) target0 backrefs) d)
          = Except.ok referencedCols)
    (h6 : (referencedCols.length != originCols.length) = false)
    (h7 : typesEquivalentPairwise originCols referencedCols = true)
    (h8 : (d.name != "" && (constraintNames (fkTbl1 tbl target0 ts)).contains d.name)
          = false)
    (hbad :
      ((d.onDelete = FKAction.setNull ∨ d.onUpdate = FKAction.setNull)
        ∧ originCols.any (fun c => !c.nullable) = true)
      ∨ ((d.onDelete = FKAction.setDefault ∨ d.onUpdate = FKAction.setDefault)
        ∧ originCols.any (fun c => c.defaultExpr == none && !c.nullable) = true)) :
    resolveFK env tbl d backrefs ts vb = Except.error SQLError.invalidForeignKey := by
  unfold resolveFK resolveFKChecks
  simp only [h1, h2, h3, h4, h5, h6, h7, h8, Bool.false_eq_true, Bool.not_true,
    Bool.not_false, if_false, if_true, ite_false, ite_true]
  by_cases hfirst :
      (d.onDelete = FKAction.setNull ∨ d.onUpdate = FKAction.setNull)
        ∧ originCols.any (fun c => !c.nullable) = true
  · rw [if_pos hfirst]
  · rw [if_neg hfirst]
    have hsecond :
        (d.onDelete = FKAction.setDefault ∨ d.onUpdate = FKAction.setDefault)
          ∧ originCols.any (fun c => c.defaultExpr == none && !c.nullable) = true := by
      rcases hbad with hb | hb
      · exact absurd hb hfirst
      · exact hb
    rw [if_pos hsecond]

/-- Characterization of the per-column interleave loop: under
well-formed descriptors (all key column IDs resolve, direction lists
aligned) it succeeds exactly when the interleave fields name the child
columns positionally and the child columns match the parent key columns
in type and direction, and it only ever fails with
InvalidSchemaDefinition. -/
theorem addInterleaveLoop_char (parent desc : TableDescriptor) :
    ∀ (pids : List Nat) (fields : List String) (pds : List Direction)
      (cids : List Nat) (cds : List Direction)
      (pcols ccols : List ColumnDescriptor),
    findColumnsByIDs parent pids = some pcols →
    findColumnsByIDs desc cids = some ccols →
    fields.length = pids.length →
    pds.length = pids.length →
    pids.length ≤ cids.length →
    cds.length = cids.length →
    ((addInterleaveLoop parent desc fields pids pds cids cds = Except.ok ()) ↔
      (fields = (ccols.take pids.length).map (fun c => c.name) ∧
       (ccols.take pids.length).map (fun c => c.typ) = pcols.map (fun c => c.typ) ∧
       cds.take pids.length = pds))
    ∧ (∀ e, addInterleaveLoop parent desc fields pids pds cids cds = Except.error e →
        e = SQLError.invalidSchemaDefinition) := by
  intro pids
  induction pids with
  | nil =>
    intro fields pds cids cds pcols ccols hp hc hlf hlpd hle hlcd
    simp only [findColumnsByIDs, Option.some.injEq] at hp
    subst hp
    have hf : fields = [] := List.length_eq_zero.mp hlf
    have hd : pds = [] := List.length_eq_zero.mp hlpd
    subst hf
    subst hd
    refine ⟨?_, ?_⟩
    · simp [addInterleaveLoop]
    · intro e he
      simp [addInterleaveLoop] at he
  | cons pid pids' ih =>
    intro fields pds cids cds pcols ccols hp hc hlf hlpd hle hlcd
    cases fields with
    | nil => simp at hlf
    | cons f fs =>
    cases pds with
    | nil => simp at hlpd
    | cons pd pds' =>
    cases cids with
    | nil => simp at hle
    | cons cid cids' =>
    cases cds with
    | nil => simp at hlcd
    | cons cd cds' =>
    simp only [List.length_cons, Nat.succ.injEq, add_left_inj] at hlf hlpd hlcd
    have hle' : pids'.length ≤ cids'.length := by
      simpa [Nat.succ_le_succ_iff] using hle
    cases hfp : parent.findColumnByID pid with
    | none => rw [findColumnsByIDs, hfp] at hp; exact absurd hp (by simp)
    | some tc =>
    cases hrecp : findColumnsByIDs parent pids' with
    | none => rw [findColumnsByIDs, hfp, hrecp] at hp; exact absurd hp (by simp)
    | some pcols' =>
    have hpc : pcols = tc :: pcols' := by
      rw [findColumnsByIDs, hfp, hrecp] at hp
      simpa using hp.symm
    subst hpc
    cases hfc : desc.findColumnByID cid with
    | none => rw [findColumnsByIDs, hfc] at hc; exact absurd hc (by simp)
    | some cc =>
    cases hrecc : findColumnsByIDs desc cids' with
    | none => rw [findColumnsByIDs, hfc, hrecc] at hc; exact absurd hc (by simp)
    | some ccols' =>
    have hcc : ccols = cc :: ccols' := by
      rw [findColumnsByIDs, hfc, hrecc] at hc
      simpa using hc.symm
    subst hcc
    obtain ⟨ihIff, ihErr⟩ :=
      ih fs pds' cids' cds' pcols' ccols' hrecp hrecc hlf hlpd hle' hlcd
    by_cases hname : f = cc.name
    · by_cases htyp : cc.typ = tc.typ
      · by_cases hdir : cd = pd
        · have hloop :
              addInterleaveLoop parent desc (f :: fs) (pid :: pids')
                  (pd :: pds') (cid :: cids') (cd :: cds')
                = addInterleaveLoop parent desc fs pids' pds' cids' cds' := by
            simp only [addInterleaveLoop, hfp, hfc]
            simp only [SqlType.Identical]
            rw [if_neg (by simp [hname]), if_neg (by simp [htyp, hdir])]
          rw [hloop]
          refine ⟨?_, ihErr⟩
          rw [ihIff]
          simp [List.take_succ_cons, hname, htyp, hdir]
        · have hloop :
              addInterleaveLoop parent desc (f :: fs) (pid :: pids')
                  (pd :: pds') (cid :: cids') (cd :: cds')
                = Except.error SQLError.invalidSchemaDefinition := by
            simp only [addInterleaveLoop, hfp, hfc]
            rw [if_neg (by simp [hname]), if_pos (by simp [hdir])]
          rw [hloop]
          refine ⟨?_, ?_⟩
          · simp only [List.take_succ_cons, List.map_cons]
            constructor
            · intro he
              exact absurd he (by simp)
            · intro hrhs
              exact absurd (List.cons_eq_cons.mp hrhs.2.2).1 hdir
          · intro e he
            simpa using he.symm
      · have hloop :
            addInterleaveLoop parent desc (f :: fs) (pid :: pids')
                (pd :: pds') (cid :: cids') (cd :: cds')
              = Except.error SQLError.invalidSchemaDefinition := by
          simp only [addInterleaveLoop, hfp, hfc]
          simp only [SqlType.Identical]
          rw [if_neg (by simp [hname]), if_pos (by simp [htyp])]
        rw [hloop]
        refine ⟨?_, ?_⟩
        · simp only [List.take_succ_cons, List.map_cons]
          constructor
          · intro he
            exact absurd he (by simp)
          · intro hrhs
            exact absurd (List.cons_eq_cons.mp hrhs.2.1).1 htyp
        · intro e he
          simpa using he.symm
    · have hloop :
          addInterleaveLoop parent desc (f :: fs) (pid :: pids')
              (pd :: pds') (cid :: cids') (cd :: cds')
            = Except.error SQLError.invalidSchemaDefinition := by
        simp only [addInterleaveLoop, hfp, hfc]
        rw [if_pos (by simp [hname])]
      rw [hloop]
      refine ⟨?_, ?_⟩
      · simp only [List.take_succ_cons, List.map_cons]
        constructor
        · intro he
          exact absurd he (by simp)
        · intro hrhs
          exact absurd (List.cons_eq_cons.mp hrhs.1).1 hname
      · intro e he
        simpa using he.symm

/-- C2 (amended).  For well-formed descriptors and a default drop
behavior, addInterleave succeeds iff the interleave field count equals
the parent's primary-index column count, the fields fit inside the child
index, the fields are the exact ordered name-prefix of the child index's
columns, and those child prefix columns match the parent primary index
positionally by identical type and by sort direction (the column names
are checked against the child index only, not against the parent);
every mismatch in count, name, type or direction yields an error with
code InvalidSchemaDefinition. -/
theorem addInterleave_prefix_law (parent desc : TableDescriptor)
    (index : IndexDescriptor) (il : InterleaveDef)
    (pcols ccols : List ColumnDescriptor)
    (hdrop : il.dropBehavior = DropBehavior.dropDefault)
    (hp : findColumnsByIDs parent parent.primaryIndex.columnIDs = some pcols)
    (hc : findColumnsByIDs desc index.columnIDs = some ccols)
    (hpd : parent.primaryIndex.columnDirections.length
            = parent.primaryIndex.columnIDs.length)
    (hcd : index.columnDirections.length = index.columnIDs.length) :
    ((∃ out, addInterleave parent desc index il = Except.ok out) ↔
      (il.fields.length = parent.primaryIndex.columnIDs.length ∧
       il.fields.length ≤ index.columnIDs.length ∧
       il.fields = (ccols.take il.fields.length).map (fun c => c.name) ∧
       (ccols.take il.fields.length).map (fun c => c.typ)
         = pcols.map (fun c => c.typ) ∧
       index.columnDirections.take il.fields.length
         = parent.primaryIndex.columnDirections))
    ∧ (∀ e, addInterleave parent desc index il = Except.error e →
        e = SQLError.invalidSchemaDefinition) := by
  unfold addInterleave
  rw [if_neg (by simp [hdrop])]
  by_cases hcount : il.fields.length = parent.primaryIndex.columnIDs.length
  · rw [if_neg (by simp [hcount])]
    by_cases hfit : il.fields.length > index.columnIDs.length
    · rw [if_pos hfit]
      refine ⟨?_, ?_⟩
      · constructor
        · intro he
          obtain ⟨out, hout⟩ := he
          exact absurd hout (by simp)
        · intro hrhs
          exact absurd hrhs.2.1 (by omega)
      · intro e he
        simpa using he.symm
    · rw [if_neg hfit]
      have hle : parent.primaryIndex.columnIDs.length ≤ index.columnIDs.length := by
        omega
      obtain ⟨lIff, lErr⟩ := addInterleaveLoop_char parent desc
        parent.primaryIndex.columnIDs il.fields
        parent.primaryIndex.columnDirections index.columnIDs
        index.columnDirections pcols ccols hp hc hcount hpd hle hcd
      cases hloop : addInterleaveLoop parent desc il.fields
          parent.primaryIndex.columnIDs parent.primaryIndex.columnDirections
          index.columnIDs index.columnDirections with
      | error e =>
        refine ⟨?_, ?_⟩
        · constructor
          · intro he
            obtain ⟨out, hout⟩ := he
            exact absurd hout (by simp)
          · intro hrhs
            rw [hcount] at hrhs
            have : addInterleaveLoop parent desc il.fields
                parent.primaryIndex.columnIDs parent.primaryIndex.columnDirections
                index.columnIDs index.columnDirections = Except.ok () := by
              rw [lIff]
              exact ⟨hrhs.2.2.1, hrhs.2.2.2.1, hrhs.2.2.2.2⟩
            rw [hloop] at this
            exact absurd this (by simp)
        · intro e2 he2
          have he3 : e2 = e := by simpa using he2.symm
          subst he3
          exact lErr e2 hloop
      | ok u =>
        cases u
        refine ⟨?_, ?_⟩
        · constructor
          · intro _
            have hspec := lIff.mp hloop
            rw [hcount]
            refine ⟨rfl, by omega, hspec.1, hspec.2.1, hspec.2.2⟩
          · intro _
            exact ⟨_, rfl⟩
        · intro e he
          exact absurd he (by simp)
  · rw [if_pos (by simp [hcount])]
    refine ⟨?_, ?_⟩
    · constructor
      · intro he
        obtain ⟨out, hout⟩ := he
        exact absurd hout (by simp)
      · intro hrhs
        exact absurd hrhs.1 hcount
    · intro e he
      simpa using he.symm

/-- The uint32 subtraction loop computes an exact natural subtraction
when the inherited prefixes sum to at most the starting value and no
wraparound occurs. -/
theorem subPrefixLoop_eq (l : List InterleaveAncestor) (s : Nat)
    (hsum : (l.map (fun a => a.sharedPrefixLen)).sum ≤ s)
    (hs : s < 2 ^ 32) :
    subPrefixLoop s l = s - (l.map (fun a => a.sharedPrefixLen)).sum := by
  induction l generalizing s with
  | nil => simp [subPrefixLoop]
  | cons a l ih =>
    have ha : a.sharedPrefixLen ≤ s := by
      simp only [List.map_cons, List.sum_cons] at hsum
      omega
    have hamod : a.sharedPrefixLen % 2 ^ 32 = a.sharedPrefixLen :=
      Nat.mod_eq_of_lt (lt_of_le_of_lt ha hs)
    have hstep : (s + 2 ^ 32 - a.sharedPrefixLen % 2 ^ 32) % 2 ^ 32
        = s - a.sharedPrefixLen := by
      rw [hamod]
      have h1 : s + 2 ^ 32 - a.sharedPrefixLen = (s - a.sharedPrefixLen) + 2 ^ 32 := by
        omega
      rw [h1, Nat.add_mod_right]
      exact Nat.mod_eq_of_lt (by omega)
    have hsum' : (l.map (fun a => a.sharedPrefixLen)).sum ≤ s - a.sharedPrefixLen := by
      simp only [List.map_cons, List.sum_cons] at hsum
      omega
    simp only [subPrefixLoop, List.foldl_cons] at *
    rw [hstep, ih _ hsum' (by omega)]
    simp only [List.map_cons, List.sum_cons]
    omega

/-- C8.  When addInterleave succeeds, the child index's ancestor chain
is a copy of the parent primary index's chain with one new entry
appended, holding the parent table ID, the parent primary index ID, and
a shared-prefix-length equal to the parent's primary-key column count
minus the sum of the SharedPrefixLen values of the parent's own
inherited ancestors; and the child table's State is set to ADD. -/
theorem addInterleave_ancestor_chain (parent desc : TableDescriptor)
    (index : IndexDescriptor) (il : InterleaveDef)
    (desc2 : TableDescriptor) (index2 : IndexDescriptor)
    (h : addInterleave parent desc index il = Except.ok (desc2, index2))
    (hsum : ((parent.primaryIndex.interleaveAncestors).map
        (fun a => a.sharedPrefixLen)).sum
      ≤ parent.primaryIndex.columnIDs.length)
    (hlt : parent.primaryIndex.columnIDs.length < 2 ^ 32) :
    index2.interleaveAncestors = parent.primaryIndex.interleaveAncestors ++
      [{ tableID := parent.id
         indexID := parent.primaryIndex.id
         sharedPrefixLen := parent.primaryIndex.columnIDs.length -
           ((parent.primaryIndex.interleaveAncestors).map
             (fun a => a.sharedPrefixLen)).sum }]
    ∧ desc2.state = DescriptorState.add := by
  unfold addInterleave at h
  split at h
  · exact Except.noConfusion h
  · split at h
    · exact Except.noConfusion h
    · split at h
      · exact Except.noConfusion h
      · split at h
        · exact Except.noConfusion h
        · rw [Except.ok.injEq, Prod.mk.injEq] at h
          obtain ⟨hd, hi⟩ := h
          subst hd
          subst hi
          refine ⟨?_, rfl⟩
          simp only
          rw [Nat.mod_eq_of_lt hlt, subPrefixLoop_eq _ _ hsum hlt]

/-- C3.  makeHashShardComputeExpr is deterministic — as a pure function,
two calls with equal inputs are definitionally the same string — and for
input (["a","b"], 4) the result is exactly the serialization of
mod(fnv32(COALESCE(a::STRING,'')) + fnv32(COALESCE(b::STRING,'')), 4):
the sum of fnv32 over COALESCE-wrapped string casts of the columns, in
column-list order, modulo the bucket count. -/
theorem makeHashShardComputeExpr_deterministic_ab4 :
    (∀ (colNames : List String) (buckets : Nat),
      makeHashShardComputeExpr colNames buckets
        = makeHashShardComputeExpr colNames buckets) ∧
    makeHashShardComputeExpr ["a", "b"] 4 =
      serializeExpr (Expr.funcExpr ("mod")
        [Expr.binPlus
          (Expr.funcExpr ("fnv32")
            [Expr.coalesceExpr
              [Expr.castString (Expr.columnItem ("a")), Expr.dString ("")]])
          (Expr.funcExpr ("fnv32")
            [Expr.coalesceExpr
              [Expr.castString (Expr.columnItem ("b")), Expr.dString ("")]]),
         Expr.dInt 4]) ∧
    makeHashShardComputeExpr ["a", "b"] 4 =
      "mod(fnv32(COALESCE(a::STRING, \x27\x27)) + fnv32(COALESCE(b::STRING, \x27\x27)), 4)" :=
  ⟨fun _ _ => rfl, rfl, rfl⟩

/-- C4.  For `CREATE TABLE t (a INT PRIMARY KEY USING HASH WITH
BUCKET_COUNT=4)` the built descriptor contains exactly one extra hidden,
non-nullable, computed column of type INT4, named deterministically from
the shard-key column list and bucket count, plus one hidden CHECK
constraint restricting that column to {0,1,2,3}. -/
theorem shardedPK_hidden_column_and_check :
    builtC.columns.map (fun c => (c.name, c.typ, c.nullable, c.hidden, c.computeExpr)) =
      [("crdb_internal_a_shard_4", SqlType.int4, false, true,
        some ("mod(fnv32(COALESCE(a::STRING, \x27\x27)), 4)")),
       ("a", SqlType.int8, false, false, none)] ∧
    builtC.checks =
      [{ name := "", expr := "crdb_internal_a_shard_4 IN (0, 1, 2, 3)", hidden := true }] ∧
    getShardColumnName ["a"] 4 = "crdb_internal_a_shard_4" :=
  ⟨rfl, rfl, rfl⟩

/-- C1 counterexample.  In scenario B (ResolveFK on a new child table
with default validation behavior) the appended foreign-key constraint
carries Validity=Validated — not Validating as the claim states. -/
theorem scenarioB_validity_not_validating :
    (resolveB.map (fun out => out.1.outboundFKs.map (fun fk => fk.validity)))
      = Except.ok [ConstraintValidity.validated]
    ∧ ConstraintValidity.validated ≠ ConstraintValidity.validating :=
  ⟨rfl, by decide⟩

/-- C1 (amended).  In scenario B, ResolveFK with table state NewTable
produces exactly one OutboundFK on child and exactly one InboundFK on
parent — the same record, whose Validity is Validated (the creation
default; the Validating/Unvalidated tags arise only for existing
tables, so requesting skip-validation changes nothing for a new
table) — and, the cluster version being below NoOriginFKIndexes and no
suitable index pre-existing, an ascending supporting index on child.a
is auto-created. -/
theorem scenarioB_new_table_fk_registration :
    resolveB.map (fun out => out.1.outboundFKs) = Except.ok [refB] ∧
    resolveB.map (fun out => out.2.map (fun t => (t.id, t.inboundFKs)))
      = Except.ok [(2, [refB])] ∧
    refB.validity = ConstraintValidity.validated ∧
    (resolveFK envB childB fkDefB [] FKTableState.newTable
        ValidationBehavior.validationSkip).map (fun out => out.1.outboundFKs)
      = Except.ok [refB] ∧
    resolveB.map (fun out =>
        out.1.indexes.map (fun i => (i.name, i.columnNames, i.columnIDs)))
      = Except.ok [("child_auto_index_fk_a_ref_parent", ["a"], [1])] :=
  ⟨rfl, rfl, rfl, rfl, rfl⟩

/-- C2 counterexample.  addInterleave succeeds although the interleave
fields do not match the parent primary index's column names ("c" vs
"p"): the name comparison is made against the child index's columns
only, so the claimed success condition (an exact prefix match against
the parent by column name) is not necessary. -/
theorem addInterleave_parent_name_mismatch_ok :
    isOkE (addInterleave parentNm childNm childNmIndex ileaveNm) = true
    ∧ ileaveNm.fields ≠ parentNm.primaryIndex.columnNames :=
  ⟨rfl, by decide⟩

/-- C9.  A freshly built table descriptor in the ADD state ends in state
PUBLIC if and only if every table it references (the IDs found by
FindAllReferences) is an uncommitted descriptor newly created in the
same transaction; if any reference is external the descriptor remains in
state ADD. -/
theorem createTable_state_gating (desc : TableDescriptor) (refs : List Nat)
    (isNewUncommitted : Nat → Bool) (h : desc.state = DescriptorState.add) :
    ((gateTableState desc refs isNewUncommitted).state = DescriptorState.publicState
      ↔ refs.all isNewUncommitted = true)
    ∧ (refs.all isNewUncommitted = false →
        (gateTableState desc refs isNewUncommitted).state = DescriptorState.add) := by
  unfold gateTableState
  rw [if_pos h]
  by_cases hall : refs.all isNewUncommitted = true
  · rw [if_pos hall]
    refine ⟨⟨fun _ => hall, fun _ => rfl⟩, fun hf => absurd hall (by simp [hf])⟩
  · rw [if_neg hall]
    refine ⟨⟨fun hp => ?_, fun ht => absurd ht hall⟩, fun _ => h⟩
    rw [h] at hp
    exact absurd hp (by simp)

/-- C10.  When getTableCreateParams finds an existing object under the
requested name, it returns the non-nil descriptor key and the resolved
schema ID together with the AlreadyExists error — not zero values — and
when the colliding object is a relation, the startExec prologue treats
that error as a successful no-op under IF NOT EXISTS without
re-resolving the name. -/
theorem getTableCreateParams_already_exists (env : CreateParamsEnv)
    (dbID : Nat) (tableSchema tableName : String)
    (schemaID objID : Nat) (k : DescKind)
    (halias : (tableSchema == "public"
        && env.publicSchemaAliases.contains tableName) = false)
    (hschema : env.schemaIDForCreate = Except.ok schemaID)
    (hperm : env.canCreateOnSchema = true)
    (hlookup : env.lookupObjectID = some objID)
    (hdesc : env.descByID objID = some k) :
    getTableCreateParams env dbID Persistence.permanent tableSchema tableName =
      (some { dbID := dbID, schemaID := schemaID, name := tableName }, schemaID,
       some (alreadyExistsErrorFor k))
    ∧ (k = DescKind.tableKind →
        startExecCreateCheck
          (getTableCreateParams env dbID Persistence.permanent tableSchema tableName)
          true = Except.ok ()) := by
  have hres : getTableCreateParams env dbID Persistence.permanent tableSchema tableName =
      (some { dbID := dbID, schemaID := schemaID, name := tableName }, schemaID,
       some (alreadyExistsErrorFor k)) := by
    unfold getTableCreateParams
    rw [if_neg (by intro hc; rw [halias] at hc; exact Bool.noConfusion hc)]
    rw [if_neg (by decide : ¬(Persistence.permanent = Persistence.temporaryP))]
    simp only [hschema, hperm, hlookup, hdesc, Bool.not_true,
      Bool.false_eq_true, if_false, ite_false]
  refine ⟨hres, fun hk => ?_⟩
  rw [hres]
  subst hk
  rfl

/-! ## Witnesses.  Each applies its claim theorem at a concrete input,
discharging every hypothesis there. -/

theorem resolveFK_bidirectional_registration_witness :
    ∃ ref : ForeignKeyConstraint,
      ref.originTableID = childB.id ∧
      (FKTableState.newTable = FKTableState.newTable →
        resolveBOut.1.outboundFKs = childB.outboundFKs ++ [ref] ∧
        ((ref.referencedTableID = childB.id ∧
            resolveBOut.1.inboundFKs = childB.inboundFKs ++ [ref] ∧
            resolveBOut.2 = [])
         ∨ (ref.referencedTableID ≠ childB.id ∧
            resolveBOut.1.inboundFKs = childB.inboundFKs ∧
            ∃ tgt : TableDescriptor, tgt.id = ref.referencedTableID ∧
              resolveBOut.2 = upsertByID []
                { tgt with inboundFKs := tgt.inboundFKs ++ [ref] }))) ∧
      (FKTableState.newTable ≠ FKTableState.newTable →
        resolveBOut.1.outboundFKs = childB.outboundFKs ∧
        resolveBOut.1.inboundFKs = childB.inboundFKs ∧
        fkMutations resolveBOut.1 = fkMutations childB ++ [ref] ∧
        (resolveBOut.2 = [] ∨
          ∃ tgt : TableDescriptor, resolveBOut.2 = upsertByID [] tgt)) :=
  resolveFK_bidirectional_registration envB childB fkDefB []
    FKTableState.newTable ValidationBehavior.validationDefault resolveBOut rfl

theorem resolveFK_self_reference_single_instance_witness :
    resolveSelfOut.2 = [] ∧
    ∃ ref : ForeignKeyConstraint,
      resolveSelfOut.1.outboundFKs = tableSelf.outboundFKs ++ [ref] ∧
      resolveSelfOut.1.inboundFKs = tableSelf.inboundFKs ++ [ref] ∧
      ref.originTableID = tableSelf.id ∧ ref.referencedTableID = tableSelf.id :=
  resolveFK_self_reference_single_instance envSelf tableSelf fkDefSelf []
    ValidationBehavior.validationDefault resolveSelfOut tableSelf rfl rfl rfl

theorem resolveFK_set_actions_not_null_rejected_witness :
    resolveFK envB childSetNull fkDefSetNull [] FKTableState.newTable
      ValidationBehavior.validationDefault
      = Except.error SQLError.invalidForeignKey :=
  resolveFK_set_actions_not_null_rejected envB childSetNull fkDefSetNull []
    FKTableState.newTable ValidationBehavior.validationDefault
    childSetNull.columns parentB.columns parentB
    rfl rfl rfl rfl rfl rfl rfl rfl
    (Or.inl ⟨Or.inl rfl, rfl⟩)

theorem addInterleave_prefix_law_witness :
    ((∃ out, addInterleave parentIl childIl childIlIndex ileaveIl = Except.ok out) ↔
      (ileaveIl.fields.length = parentIl.primaryIndex.columnIDs.length ∧
       ileaveIl.fields.length ≤ childIlIndex.columnIDs.length ∧
       ileaveIl.fields =
         (childIl.columns.take ileaveIl.fields.length).map (fun c => c.name) ∧
       (childIl.columns.take ileaveIl.fields.length).map (fun c => c.typ)
         = parentIl.columns.map (fun c => c.typ) ∧
       childIlIndex.columnDirections.take ileaveIl.fields.length
         = parentIl.primaryIndex.columnDirections))
    ∧ (∀ e, addInterleave parentIl childIl childIlIndex ileaveIl = Except.error e →
        e = SQLError.invalidSchemaDefinition) :=
  addInterleave_prefix_law parentIl childIl childIlIndex ileaveIl
    parentIl.columns childIl.columns rfl rfl rfl rfl rfl

theorem addInterleave_ancestor_chain_witness :
    addIlOut.2.interleaveAncestors = parentIl.primaryIndex.interleaveAncestors ++
      [{ tableID := parentIl.id
         indexID := parentIl.primaryIndex.id
         sharedPrefixLen := parentIl.primaryIndex.columnIDs.length -
           ((parentIl.primaryIndex.interleaveAncestors).map
             (fun a => a.sharedPrefixLen)).sum }]
    ∧ addIlOut.1.state = DescriptorState.add :=
  addInterleave_ancestor_chain parentIl childIl childIlIndex ileaveIl
    addIlOut.1 addIlOut.2 rfl (by decide) (by decide)

theorem createTable_state_gating_witness :
    ((gateTableState descGate [5] (fun i => i == 5)).state
        = DescriptorState.publicState
      ↔ [5].all (fun i => i == 5) = true)
    ∧ ([5].all (fun i => i == 5) = false →
        (gateTableState descGate [5] (fun i => i == 5)).state
          = DescriptorState.add) :=
  createTable_state_gating descGate [5] (fun i => i == 5) rfl

theorem getTableCreateParams_already_exists_witness :
    getTableCreateParams envCP 7 Persistence.permanent ("public") ("orders") =
      (some { dbID := 7, schemaID := 29, name := "orders" }, 29,
       some (alreadyExistsErrorFor DescKind.tableKind))
    ∧ (DescKind.tableKind = DescKind.tableKind →
        startExecCreateCheck
          (getTableCreateParams envCP 7 Persistence.permanent ("public") ("orders"))
          true = Except.ok ()) :=
  getTableCreateParams_already_exists envCP 7 ("public") ("orders") 29 77
    DescKind.tableKind rfl rfl rfl rfl rfl

end CreateTable
